import Mathlib

/-
  Verification of the concurrency core of the minimax-mcp-tools repository:
  the token-bucket rate limiter (src/core/rate-limiter.ts), the adaptive
  limiter that extends it, the task manager (src/core/task-manager.ts)
  and the error classifier (src/utils/error-handler.ts).

  Numbers: JavaScript arithmetic on the values reached by these claims is
  exact (small integers and finite decimal factors), so numeric fields are
  embedded as rationals, token counts as integers or naturals, and
  Math.floor as Int.floor.  Stateful classes become explicit state records;
  the event-loop interleaving of promise callbacks becomes an executable
  step function over explicit event lists, where each synchronous callback
  body is one atomic step.
-/

namespace MinimaxTools

/-! ## Error model (src/utils/error-handler.ts)

A thrown JavaScript error value, as observed by the catch sites of the
repository.  The kind field records which MinimaxError subclass the value
is an instance of (MinimaxErrKind.generic for a plain Error), which is what
an instanceof test can observe. -/

inductive MinimaxErrKind where
  | generic
  | config
  | api
  | validation
  | network
  | timeout
  | rateLimit
deriving DecidableEq, Repr

structure ThrownError where
  kind : MinimaxErrKind
  name : String
  message : String
  code : Option String := none
  timeout : Option ℚ := none
deriving DecidableEq, Repr

/-- A structured MinimaxError value as produced by the error-handler
constructors: a kind (the subclass), a message, the code string given to
the base constructor, and the subclass payload fields. -/
structure MinimaxErr where
  kind : MinimaxErrKind
  message : String
  code : String
  statusCode : Option ℤ := none
  retryAfter : Option ℚ := none
  timeoutVal : Option ℚ := none
deriving DecidableEq, Repr

def minimaxError (message : String) : MinimaxErr :=
  { kind := MinimaxErrKind.generic, message := message, code := "MINIMAX_ERROR" }

def minimaxAPIError (message : String) (statusCode : Option ℤ) : MinimaxErr :=
  { kind := MinimaxErrKind.api, message := message, code := "API_ERROR", statusCode := statusCode }

def minimaxRateLimitError (message : String) (retryAfter : Option ℚ) : MinimaxErr :=
  { kind := MinimaxErrKind.rateLimit, message := message, code := "RATE_LIMIT_ERROR",
    retryAfter := retryAfter }

def minimaxNetworkError (message : String) : MinimaxErr :=
  { kind := MinimaxErrKind.network, message := message, code := "NETWORK_ERROR" }

def minimaxTimeoutError (message : String) (timeout : Option ℚ) : MinimaxErr :=
  { kind := MinimaxErrKind.timeout, message := message, code := "TIMEOUT_ERROR",
    timeoutVal := timeout }

/-- The base_resp object of a Minimax API response. -/
structure BaseResp where
  status_code : ℤ
  status_msg : Option String := none
  retry_after : Option ℚ := none
deriving DecidableEq, Repr

structure APIResponse where
  base_resp : Option BaseResp := none
deriving DecidableEq, Repr

/-- JavaScript expression v or-else d on strings: the left operand wins
unless it is falsy (absent or the empty string). -/
def jsOrString (v : Option String) (d : String) : String :=
  match v with
  | some s => if s = "" then d else s
  | none => d

/-- Numeric value of a list of decimal digit characters (the parseInt call
on the capture group of the HTTP status regular expression). -/
def digitsVal (cs : List Char) : ℕ :=
  cs.foldl (fun a c => a * 10 + (c.toNat - 48)) 0

/-- Attempt to read, at the head of cs, one or more decimal digits followed
by a colon: the tail of the pattern HTTP followed by digits and a colon. -/
def httpDigits (cs : List Char) : Option ℕ :=
  let ds := cs.takeWhile Char.isDigit
  if ds ≠ [] ∧ (cs.drop ds.length).head? = some ':' then some (digitsVal ds) else none

/-- Leftmost match of the pattern: the literal HTTP and a space, then
digits, then a colon; returns the digits.  Mirrors the regular expression
match in ErrorHandler.handleAPIError. -/
def findHttpCode : List Char → Option ℕ
  | [] => none
  | c :: rest =>
    if ("HTTP ".toList).isPrefixOf (c :: rest) then
      match httpDigits ((c :: rest).drop 5) with
      | some n => some n
      | none => findHttpCode rest
    else findHttpCode rest

/-- Whether pat occurs as a contiguous substring (the includes test). -/
def hasSubstr (pat : List Char) : List Char → Bool
  | [] => pat.isPrefixOf []
  | c :: rest => pat.isPrefixOf (c :: rest) || hasSubstr pat rest

/-- The part of ErrorHandler.handleAPIError after the response branch:
HTTP message errors, network errors, timeout errors, and the generic
fallback. -/
def handleNonResponseError (error : ThrownError) : MinimaxErr :=
  if error.message ≠ "" ∧ hasSubstr ("HTTP".toList) error.message.toList then
    match findHttpCode error.message.toList with
    | some 401 => minimaxAPIError "Unauthorized: Invalid API key" (some 401)
    | some 403 => minimaxAPIError "Forbidden: Access denied" (some 403)
    | some 404 => minimaxAPIError "Not found: Invalid endpoint" (some 404)
    | some 429 => minimaxRateLimitError "Rate limit exceeded" none
    | some 500 => minimaxAPIError "Internal server error" (some 500)
    | other => minimaxAPIError error.message (other.map Int.ofNat)
  else if error.code = some "ECONNREFUSED" ∨ error.code = some "ENOTFOUND" then
    minimaxNetworkError "Network connection failed"
  else if error.name = "AbortError" ∨
      (error.message ≠ "" ∧ hasSubstr ("timeout".toList) error.message.toList) then
    minimaxTimeoutError "Request timeout" error.timeout
  else
    minimaxError (if error.message = "" then "Unknown error occurred" else error.message)

/-- The response branch of ErrorHandler.handleAPIError, reached when the
response carries a base_resp with a nonzero status code. -/
def handleRespError (error : ThrownError) (br : BaseResp) : MinimaxErr :=
  if br.status_code ≠ 0 then
    if br.status_code = 1004 then
      minimaxAPIError
        ("Authentication failed: " ++ jsOrString br.status_msg "API request failed")
        (some br.status_code)
    else if br.status_code = 1013 then
      minimaxRateLimitError
        ("Rate limit exceeded: " ++ jsOrString br.status_msg "API request failed")
        br.retry_after
    else
      minimaxAPIError (jsOrString br.status_msg "API request failed") (some br.status_code)
  else handleNonResponseError error

/-- ErrorHandler.handleAPIError: classify a thrown error (and an optional
API response) into a structured MinimaxErr. -/
def handleAPIError (error : ThrownError) (response : Option APIResponse) : MinimaxErr :=
  match response with
  | some resp =>
    match resp.base_resp with
    | some br => handleRespError error br
    | none => handleNonResponseError error
  | none => handleNonResponseError error

/-! ## Token bucket refill (class RateLimiter, src/core/rate-limiter.ts) -/

/-- The scalar fields of the base RateLimiter: configured rpm, burst,
window, the derived inter-token interval, the current token count and the
last-refill timestamp (milliseconds). -/
structure RLState where
  rpm : ℚ
  burst : ℤ
  window : ℚ
  interval : ℚ
  tokens : ℤ
  lastRefill : ℚ
deriving DecidableEq, Repr

/-- refillTokens: compute elapsed time since the last refill, floor-divide
by the interval, and if at least one whole token results add that many
tokens capped at burst and set the last-refill timestamp to the current
time. -/
def refillTokens (s : RLState) (now : ℚ) : RLState :=
  let timePassed := now - s.lastRefill
  let tokensToAdd : ℤ := ⌊timePassed / s.interval⌋
  if 0 < tokensToAdd then
    { s with tokens := min s.burst (s.tokens + tokensToAdd), lastRefill := now }
  else s

/-- A concrete limiter state: rpm 10 over a 60000 ms window (interval 6000),
burst 3, bucket empty, last refill at time 0. -/
def rl0 : RLState :=
  { rpm := 10, burst := 3, window := 60000, interval := 6000, tokens := 0, lastRefill := 0 }

/-- Claim C1 counterexample: refilling rl0 at time 9000 adds exactly one
token, yet the last-refill timestamp becomes 9000, not the 6000 that
advancing by tokensAdded times interval would give: the fractional half
interval of elapsed time is discarded. -/
theorem C1_refill_counterexample :
    (refillTokens rl0 9000).tokens - rl0.tokens = 1 ∧
    (refillTokens rl0 9000).lastRefill = 9000 ∧
    rl0.lastRefill +
      (((refillTokens rl0 9000).tokens - rl0.tokens : ℤ) : ℚ) * rl0.interval = 6000 ∧
    (9000 : ℚ) ≠ 6000 := by
  have h : ⌊(9000 : ℚ) / 6000⌋ = 1 := by norm_num
  refine ⟨?_, ?_, ?_, by norm_num⟩ <;> simp [refillTokens, rl0, h]

/-- Claim C1, amended: whenever the elapsed time yields at least one whole
token, refillTokens snaps the last-refill timestamp forward to the current
time, so any leftover fractional elapsed time beyond tokensAdded times
interval is discarded; the timestamp is left untouched only when no whole
token was produced. -/
theorem C1_refill_snaps_timestamp (s : RLState) (now : ℚ) (hpos : 0 < s.interval) :
    (1 ≤ ⌊(now - s.lastRefill) / s.interval⌋ →
      (refillTokens s now).lastRefill = now ∧
      s.lastRefill + (⌊(now - s.lastRefill) / s.interval⌋ : ℚ) * s.interval ≤ now) ∧
    (⌊(now - s.lastRefill) / s.interval⌋ < 1 → refillTokens s now = s) := by
  constructor
  · intro h
    constructor
    · simp only [refillTokens]
      rw [if_pos (by exact_mod_cast h)]
    · have hle : (⌊(now - s.lastRefill) / s.interval⌋ : ℚ) ≤ (now - s.lastRefill) / s.interval :=
        Int.floor_le _
      have := (mul_le_mul_right hpos).mpr hle
      rw [div_mul_cancel₀ _ (ne_of_gt hpos)] at this
      linarith
  · intro h
    simp only [refillTokens]
    rw [if_neg (by omega)]

/-- Witness for the amended claim C1 at the concrete state rl0 and time
9000: the interval is positive, one token is due, the timestamp snaps to
9000 and the consumed-time bound holds. -/
theorem C1_refill_snaps_timestamp_witness :
    0 < rl0.interval ∧
    ((1 ≤ ⌊((9000 : ℚ) - rl0.lastRefill) / rl0.interval⌋ →
      (refillTokens rl0 9000).lastRefill = 9000 ∧
      rl0.lastRefill + (⌊((9000 : ℚ) - rl0.lastRefill) / rl0.interval⌋ : ℚ) * rl0.interval ≤ 9000) ∧
    (⌊((9000 : ℚ) - rl0.lastRefill) / rl0.interval⌋ < 1 → refillTokens rl0 9000 = rl0)) :=
  ⟨by norm_num [rl0], C1_refill_snaps_timestamp rl0 9000 (by norm_num [rl0])⟩

/-! ## Wait queue discipline (acquire and processQueue, src/core/rate-limiter.ts)

The limiter queue, instrumented for claim C9.  Each acquire call is
labelled with a fresh identifier.  The ghost fields arrivals, granted and
rejected record, in order, every acquire ever made, every waiter whose
resolve callback was invoked, and every waiter whose reject callback was
invoked.  The code stores a reject callback for each waiter but contains
no call to it, so no step ever appends to rejected.  Time is abstracted:
a refill contributes some number k of whole tokens (k is zero when less
than one interval has elapsed), capped at burst exactly as the code caps
it. -/

structure QState where
  burst : ℕ
  tokens : ℕ
  queue : List ℕ
  arrivals : List ℕ
  granted : List ℕ
  rejected : List ℕ
deriving DecidableEq, Repr

def qRefill (s : QState) (k : ℕ) : QState :=
  { s with tokens := min s.burst (s.tokens + k) }

/-- The while loop of processQueue: pop the oldest waiter and spend one
token while both a waiter and a token remain; it grants the first
min tokens (queue length) waiters in queue order. -/
def qDrain (s : QState) : QState :=
  let n := min s.tokens s.queue.length
  { s with granted := s.granted ++ s.queue.take n,
           queue := s.queue.drop n,
           tokens := s.tokens - n }

/-- processQueue: return unchanged when the queue is empty, else refill
then drain. -/
def qProcess (s : QState) (k : ℕ) : QState :=
  if s.queue = [] then s else qDrain (qRefill s k)

inductive QEvent where
  | acquire (id : ℕ) (k : ℕ)
  | timer (k : ℕ)
deriving DecidableEq, Repr

/-- One event-loop turn of the limiter: an acquire call pushes the waiter
onto the queue and synchronously runs processQueue; a timer callback
scheduled by a previous grant runs processQueue alone. -/
def qStep (s : QState) : QEvent → Option QState
  | QEvent.acquire id k =>
    if id ∈ s.arrivals then none
    else some (qProcess { s with arrivals := s.arrivals ++ [id], queue := s.queue ++ [id] } k)
  | QEvent.timer k => some (qProcess s k)

def qRun (s : QState) : List QEvent → Option QState
  | [] => some s
  | e :: rest =>
    match qStep s e with
    | none => none
    | some s2 => qRun s2 rest

def qInit (burst : ℕ) : QState :=
  { burst := burst, tokens := burst, queue := [], arrivals := [], granted := [], rejected := [] }

def QReachable (burst : ℕ) (s : QState) : Prop :=
  ∃ evs, qRun (qInit burst) evs = some s

theorem qProcess_ghost (s : QState) (k : ℕ) :
    (qProcess s k).rejected = s.rejected ∧
    (qProcess s k).granted ++ (qProcess s k).queue = s.granted ++ s.queue ∧
    (qProcess s k).arrivals = s.arrivals := by
  unfold qProcess qDrain qRefill
  split
  · exact ⟨rfl, rfl, rfl⟩
  · refine ⟨rfl, ?_, rfl⟩
    simp [List.append_assoc, List.take_append_drop]

theorem qStep_inv (s s2 : QState) (e : QEvent)
    (hstep : qStep s e = some s2)
    (hinv : s.rejected = [] ∧ s.granted ++ s.queue = s.arrivals) :
    s2.rejected = [] ∧ s2.granted ++ s2.queue = s2.arrivals := by
  cases e with
  | acquire id k =>
    simp only [qStep] at hstep
    split at hstep
    · exact absurd hstep (by simp)
    · obtain ⟨h1, h2, h3⟩ := qProcess_ghost
        { s with arrivals := s.arrivals ++ [id], queue := s.queue ++ [id] } k
      cases hstep
      refine ⟨by rw [h1, hinv.1], ?_⟩
      rw [h2, h3]
      simp only
      rw [← List.append_assoc, hinv.2]
  | timer k =>
    simp only [qStep, Option.some.injEq] at hstep
    obtain ⟨h1, h2, h3⟩ := qProcess_ghost s k
    cases hstep
    exact ⟨by rw [h1, hinv.1], by rw [h2, h3, hinv.2]⟩

theorem qRun_inv (evs : List QEvent) (s s2 : QState)
    (hrun : qRun s evs = some s2)
    (hinv : s.rejected = [] ∧ s.granted ++ s.queue = s.arrivals) :
    s2.rejected = [] ∧ s2.granted ++ s2.queue = s2.arrivals := by
  induction evs generalizing s with
  | nil => simp only [qRun, Option.some.injEq] at hrun; cases hrun; exact hinv
  | cons e rest ih =>
    simp only [qRun] at hrun
    cases h : qStep s e with
    | none => rw [h] at hrun; cases hrun
    | some s1 =>
      rw [h] at hrun
      exact ih s1 hrun (qStep_inv s s1 e h hinv)

/-- Claim C9: over every sequence of acquire calls and timer callbacks of
one limiter, no pending acquire promise is ever rejected (the rejected
ghost list stays empty), and the waiters granted so far are exactly the
earliest arrivals in arrival order, so a waiter enqueued earlier is always
granted no later than one enqueued after it. -/
theorem C9_fifo_never_rejected (burst : ℕ) (s : QState) (h : QReachable burst s) :
    s.rejected = [] ∧
    s.granted ++ s.queue = s.arrivals ∧
    s.granted = s.arrivals.take s.granted.length := by
  obtain ⟨evs, hrun⟩ := h
  obtain ⟨h1, h2⟩ := qRun_inv evs (qInit burst) s hrun (by simp [qInit])
  exact ⟨h1, h2, by rw [← h2, List.take_left]⟩

/-- The limiter state reached from a burst-1 limiter by two acquire calls
and one timer callback: both waiters granted, none pending or rejected. -/
def q9 : QState :=
  { burst := 1, tokens := 0, queue := [], arrivals := [0, 1],
    granted := [0, 1], rejected := [] }

/-- Witness for claim C9: with burst 1, two acquire calls and one timer
callback lead to the state where both waiters were granted in arrival
order and none was rejected. -/
theorem C9_fifo_never_rejected_witness :
    QReachable 1 q9 ∧
    q9.rejected = [] ∧
    q9.granted ++ q9.queue = q9.arrivals ∧
    q9.granted = q9.arrivals.take q9.granted.length :=
  ⟨⟨[QEvent.acquire 0 0, QEvent.acquire 1 0, QEvent.timer 1], by decide⟩,
    C9_fifo_never_rejected 1 q9
      ⟨[QEvent.acquire 0 0, QEvent.acquire 1 0, QEvent.timer 1], by decide⟩⟩

/-! ## Adaptive limiter (class AdaptiveRateLimiter, src/core/rate-limiter.ts)

The full scalar state of an AdaptiveRateLimiter: the inherited base fields
(the queue is kept as a list of waiter labels) plus the adaptive fields of
the subclass. -/

structure AdaptiveState where
  rpm : ℚ
  burst : ℤ
  window : ℚ
  interval : ℚ
  tokens : ℤ
  lastRefill : ℚ
  queue : List ℕ
  consecutiveErrors : ℕ
  lastErrorTime : ℚ
  originalRpm : ℚ
  backoffFactor : ℚ
  recoveryFactor : ℚ
  maxBackoff : ℕ
deriving DecidableEq, Repr

/-- Constructor arguments of AdaptiveRateLimiter; absent optional fields
are none. -/
structure AdaptiveConfig where
  rpm : ℚ
  burst : Option ℤ := none
  window : Option ℚ := none
  backoffFactor : Option ℚ := none
  recoveryFactor : Option ℚ := none
  maxBackoff : Option ℕ := none
deriving DecidableEq, Repr

/-- JavaScript v or-else d on numbers: the left operand wins unless it is
falsy (absent or zero). -/
def jsOrQ (v : Option ℚ) (d : ℚ) : ℚ :=
  match v with
  | some x => if x = 0 then d else x
  | none => d

def jsOrN (v : Option ℕ) (d : ℕ) : ℕ :=
  match v with
  | some x => if x = 0 then d else x
  | none => d

/-- The AdaptiveRateLimiter constructor: the base constructor applies the
destructuring defaults burst 1 and window 60000 and derives the interval,
fills the bucket to burst and stamps the current time; the subclass then
resolves its factors with JavaScript or-else defaults 0.5, 1.1 and 5 and
remembers the original rpm. -/
def initAdaptive (c : AdaptiveConfig) (now : ℚ) : AdaptiveState :=
  let burst := c.burst.getD 1
  let window := c.window.getD 60000
  { rpm := c.rpm, burst := burst, window := window, interval := window / c.rpm,
    tokens := burst, lastRefill := now, queue := [],
    consecutiveErrors := 0, lastErrorTime := 0, originalRpm := c.rpm,
    backoffFactor := jsOrQ c.backoffFactor (1 / 2),
    recoveryFactor := jsOrQ c.recoveryFactor (11 / 10),
    maxBackoff := jsOrN c.maxBackoff 5 }

/-- reset, inherited unchanged from the base class: refill the bucket to
burst, stamp the current time and drop the queue; no other field is
touched. -/
def reset (s : AdaptiveState) (now : ℚ) : AdaptiveState :=
  { s with tokens := s.burst, lastRefill := now, queue := [] }

/-- onSuccess: with an active penalty, decrement the consecutive-error
count; when it reaches zero, grow the rpm by the recovery factor capped at
the original rpm and recompute the interval. -/
def onSuccess (s : AdaptiveState) : AdaptiveState :=
  if 0 < s.consecutiveErrors then
    let c := s.consecutiveErrors - 1
    if c = 0 then
      let newRpm := min s.originalRpm (s.rpm * s.recoveryFactor)
      { s with consecutiveErrors := c, rpm := newRpm, interval := s.window / newRpm }
    else
      { s with consecutiveErrors := c }
  else s

/-- onError: only an error that is an instance of MinimaxRateLimitError
mutates the limiter; it bumps the consecutive-error count, stamps the
error time, recomputes rpm as max 1 of originalRpm times
backoffFactor to the power min of the count and maxBackoff, recomputes
the interval, and clamps the tokens to the floor of burst times that
multiplier. -/
def onError (s : AdaptiveState) (e : ThrownError) (now : ℚ) : AdaptiveState :=
  if e.kind = MinimaxErrKind.rateLimit then
    let consecutiveErrors := s.consecutiveErrors + 1
    let backoffMultiplier := s.backoffFactor ^ (min consecutiveErrors s.maxBackoff)
    let newRpm := max 1 (s.originalRpm * backoffMultiplier)
    { s with consecutiveErrors := consecutiveErrors, lastErrorTime := now,
             rpm := newRpm, interval := s.window / newRpm,
             tokens := min s.tokens ⌊(s.burst : ℚ) * backoffMultiplier⌋ }
  else s

/-- Fold a sequence of onError calls (error and timestamp pairs) over a
limiter state. -/
def applyErrors (s : AdaptiveState) (errs : List (ThrownError × ℚ)) : AdaptiveState :=
  errs.foldl (fun st p => onError st p.1 p.2) s

theorem onError_rateLimit_fields (s : AdaptiveState) (e : ThrownError) (now : ℚ)
    (h : e.kind = MinimaxErrKind.rateLimit) :
    (onError s e now).consecutiveErrors = s.consecutiveErrors + 1 ∧
    (onError s e now).originalRpm = s.originalRpm ∧
    (onError s e now).backoffFactor = s.backoffFactor ∧
    (onError s e now).maxBackoff = s.maxBackoff ∧
    (onError s e now).rpm =
      max 1 (s.originalRpm * s.backoffFactor ^ (min (s.consecutiveErrors + 1) s.maxBackoff)) := by
  simp [onError, h]

theorem applyErrors_spec (errs : List (ThrownError × ℚ)) (s : AdaptiveState)
    (hall : ∀ p ∈ errs, p.1.kind = MinimaxErrKind.rateLimit) :
    (applyErrors s errs).consecutiveErrors = s.consecutiveErrors + errs.length ∧
    (applyErrors s errs).originalRpm = s.originalRpm ∧
    (applyErrors s errs).backoffFactor = s.backoffFactor ∧
    (applyErrors s errs).maxBackoff = s.maxBackoff ∧
    (errs ≠ [] →
      (applyErrors s errs).rpm =
        max 1 (s.originalRpm *
          s.backoffFactor ^ (min (s.consecutiveErrors + errs.length) s.maxBackoff))) := by
  induction errs generalizing s with
  | nil => simp [applyErrors]
  | cons e rest ih =>
    have he : e.1.kind = MinimaxErrKind.rateLimit := hall e (by simp)
    have hrest : ∀ p ∈ rest, p.1.kind = MinimaxErrKind.rateLimit := fun p hp =>
      hall p (List.mem_cons_of_mem _ hp)
    have happ : applyErrors s (e :: rest) = applyErrors (onError s e.1 e.2) rest := rfl
    obtain ⟨f1, f2, f3, f4, f5⟩ := onError_rateLimit_fields s e.1 e.2 he
    obtain ⟨i1, i2, i3, i4, i5⟩ := ih (onError s e.1 e.2) hrest
    rw [happ]
    refine ⟨by rw [i1, f1, List.length_cons]; omega,
      by rw [i2, f2], by rw [i3, f3], by rw [i4, f4], ?_⟩
    intro _
    cases rest with
    | nil => simpa [applyErrors] using f5
    | cons f fs =>
      rw [i5 (by simp), f1, f2, f3, f4]
      have : s.consecutiveErrors + 1 + (f :: fs).length =
          s.consecutiveErrors + (e :: f :: fs).length := by simp; omega
      rw [this]

/-- Claim C4: an adaptive limiter with no active penalty that suffers K
consecutive rate-limit-classified failures, with no intervening successes,
ends with effective rpm equal to max 1 of originalRpm times backoffFactor
to the power min K maxBackoff. -/
theorem C4_backoff_rpm (s : AdaptiveState) (errs : List (ThrownError × ℚ))
    (h0 : s.consecutiveErrors = 0)
    (hall : ∀ p ∈ errs, p.1.kind = MinimaxErrKind.rateLimit)
    (hne : errs ≠ []) :
    (applyErrors s errs).rpm =
      max 1 (s.originalRpm * s.backoffFactor ^ (min errs.length s.maxBackoff)) := by
  have h := (applyErrors_spec errs s hall).2.2.2.2 hne
  rw [h, h0, Nat.zero_add]

/-- The image-category limiter configuration of the repository: rpm 10,
burst 3, backoff factor 0.7, recovery factor 1.05, max backoff 5. -/
def cfgImage : AdaptiveConfig :=
  { rpm := 10, burst := some 3, window := none,
    backoffFactor := some (7 / 10), recoveryFactor := some (21 / 20), maxBackoff := some 5 }

/-- A thrown MinimaxRateLimitError instance. -/
def rlErr : ThrownError :=
  { kind := MinimaxErrKind.rateLimit, name := "MinimaxRateLimitError",
    message := "Rate limit exceeded" }

def errsTwo : List (ThrownError × ℚ) := [(rlErr, 0), (rlErr, 5)]

/-- Witness for claim C4: a fresh image-category limiter hit by two
rate-limit failures. -/
theorem C4_backoff_rpm_witness :
    (initAdaptive cfgImage 0).consecutiveErrors = 0 ∧
    (∀ p ∈ errsTwo, p.1.kind = MinimaxErrKind.rateLimit) ∧
    errsTwo ≠ [] ∧
    (applyErrors (initAdaptive cfgImage 0) errsTwo).rpm =
      max 1 ((initAdaptive cfgImage 0).originalRpm *
        (initAdaptive cfgImage 0).backoffFactor ^
          (min errsTwo.length (initAdaptive cfgImage 0).maxBackoff)) :=
  ⟨rfl, by decide, by decide,
    C4_backoff_rpm (initAdaptive cfgImage 0) errsTwo rfl (by decide) (by decide)⟩

/-- Claim C5: one onSuccess call on a limiter with K consecutive errors,
K positive, drops the counter to exactly K minus one; the rpm grows by the
recovery factor capped at the original rpm with the interval recomputed
exactly when the counter reaches zero, and is untouched otherwise. -/
theorem C5_onSuccess_recovery (s : AdaptiveState) (h : 0 < s.consecutiveErrors) :
    (onSuccess s).consecutiveErrors = s.consecutiveErrors - 1 ∧
    (s.consecutiveErrors = 1 →
      (onSuccess s).rpm = min s.originalRpm (s.rpm * s.recoveryFactor) ∧
      (onSuccess s).interval = s.window / min s.originalRpm (s.rpm * s.recoveryFactor)) ∧
    (1 < s.consecutiveErrors →
      (onSuccess s).rpm = s.rpm ∧ (onSuccess s).interval = s.interval) := by
  rcases Nat.lt_or_ge 1 s.consecutiveErrors with h1 | h1
  · have hc : ¬ s.consecutiveErrors - 1 = 0 := by omega
    refine ⟨?_, fun heq => absurd heq (by omega), fun _ => ⟨?_, ?_⟩⟩ <;>
      simp [onSuccess, h, hc]
  · have hc : s.consecutiveErrors = 1 := by omega
    refine ⟨?_, fun _ => ⟨?_, ?_⟩, fun hlt => absurd hc (by omega)⟩ <;>
      simp [onSuccess, hc]

/-- A penalized image limiter: one rate-limit failure applied to the fresh
limiter. -/
def penalizedOnce : AdaptiveState := onError (initAdaptive cfgImage 0) rlErr 3

/-- Witness for claim C5 at the once-penalized limiter, whose
consecutive-error count is one. -/
theorem C5_onSuccess_recovery_witness :
    0 < penalizedOnce.consecutiveErrors ∧
    ((onSuccess penalizedOnce).consecutiveErrors = penalizedOnce.consecutiveErrors - 1 ∧
    (penalizedOnce.consecutiveErrors = 1 →
      (onSuccess penalizedOnce).rpm =
        min penalizedOnce.originalRpm (penalizedOnce.rpm * penalizedOnce.recoveryFactor) ∧
      (onSuccess penalizedOnce).interval =
        penalizedOnce.window /
          min penalizedOnce.originalRpm (penalizedOnce.rpm * penalizedOnce.recoveryFactor)) ∧
    (1 < penalizedOnce.consecutiveErrors →
      (onSuccess penalizedOnce).rpm = penalizedOnce.rpm ∧
      (onSuccess penalizedOnce).interval = penalizedOnce.interval)) :=
  ⟨by simp [penalizedOnce, onError, initAdaptive, rlErr, cfgImage],
    C5_onSuccess_recovery penalizedOnce
      (by simp [penalizedOnce, onError, initAdaptive, rlErr, cfgImage])⟩

/-- Claim C6: an error that is not an instance of MinimaxRateLimitError
leaves the whole limiter state unchanged: consecutive-error count, rpm,
interval, tokens, last-refill timestamp, queue and every other field are
identical. -/
theorem C6_onError_frame (s : AdaptiveState) (e : ThrownError) (now : ℚ)
    (h : e.kind ≠ MinimaxErrKind.rateLimit) :
    onError s e now = s := by
  simp [onError, h]

/-- A thrown MinimaxValidationError instance. -/
def validationErr : ThrownError :=
  { kind := MinimaxErrKind.validation, name := "MinimaxValidationError",
    message := "Invalid voice setting" }

/-- Witness for claim C6: a validation error applied to the once-penalized
image limiter changes nothing. -/
theorem C6_onError_frame_witness :
    validationErr.kind ≠ MinimaxErrKind.rateLimit ∧
    onError penalizedOnce validationErr 9 = penalizedOnce :=
  ⟨by decide, C6_onError_frame penalizedOnce validationErr 9 (by decide)⟩

/-! ## Task manager (class TaskManager, src/core/task-manager.ts)

State of the task registry: the keys of the in-flight promise map, the
completed-task map as an association list in insertion order, and the
taskCounter field of the constructor.  The ghost field recorded lists
every id whose settlement callback (the then or catch handler that writes
completedTasks) has already run; the code runs that callback exactly once
per submitted task, and the finally handler that deletes the id from the
in-flight map runs strictly after it, as a separate microtask.  Ids are
assumed globally fresh across submissions, which the data model of the
registry requires of callers and which the generated ids provide.

Each JavaScript callback body is one atomic step; between any two steps
another caller may observe the state or run clearCompletedTasks. -/

structure TaskResult (α : Type) where
  success : Bool
  result : Option α
  error : Option MinimaxErr
  completedAt : ℚ
deriving DecidableEq, Repr

structure TMState (α : Type) where
  tasks : List String
  completedTasks : List (String × TaskResult α)
  taskCounter : ℕ
  recorded : List String
deriving DecidableEq, Repr

def keysOf {α : Type} (l : List (String × TaskResult α)) : List String :=
  l.map Prod.fst

def tmInit {α : Type} : TMState α :=
  { tasks := [], completedTasks := [], taskCounter := 0, recorded := [] }

/-- The completed-task record written when a work function settles: the
then handler stores success true with the value, the catch handler stores
success false with the error processed by ErrorHandler.handleAPIError. -/
def settleOutcome {α : Type} (res : Except ThrownError α) (now : ℚ) : TaskResult α :=
  match res with
  | Except.ok v => { success := true, result := some v, error := none, completedAt := now }
  | Except.error e =>
    { success := false, result := none, error := some (handleAPIError e none), completedAt := now }

inductive TMEvent (α : Type) where
  | submit (id : String)
  | record (id : String) (res : Except ThrownError α) (now : ℚ)
  | finalize (id : String)
  | clear
deriving Repr

/-- One atomic step of the registry: submit registers a fresh id in the
in-flight map; record is the settlement callback that writes the
completed map while the id is still in the in-flight map; finalize is the
later finally callback that deletes the id from the in-flight map; clear
is clearCompletedTasks. -/
def tmStep {α : Type} (s : TMState α) : TMEvent α → Option (TMState α)
  | TMEvent.submit id =>
    if id ∈ s.tasks ∨ id ∈ s.recorded then none
    else some { s with tasks := s.tasks ++ [id] }
  | TMEvent.record id res now =>
    if id ∈ s.tasks ∧ id ∉ s.recorded then
      some { s with completedTasks := s.completedTasks ++ [(id, settleOutcome res now)],
                    recorded := s.recorded ++ [id] }
    else none
  | TMEvent.finalize id =>
    if id ∈ s.tasks ∧ id ∈ s.recorded then
      some { s with tasks := s.tasks.erase id }
    else none
  | TMEvent.clear => some { s with completedTasks := [] }

def tmRun {α : Type} (s : TMState α) : List (TMEvent α) → Option (TMState α)
  | [] => some s
  | e :: rest =>
    match tmStep s e with
    | none => none
    | some s2 => tmRun s2 rest

def TMReachable {α : Type} (s : TMState α) : Prop :=
  ∃ evs, tmRun tmInit evs = some s

inductive TaskStatusKind (α : Type) where
  | running
  | completed (r : TaskResult α)
  | notFound
deriving DecidableEq, Repr

/-- getTaskStatus: the in-flight map is consulted first, then the
completed map, else not_found. -/
def getTaskStatus {α : Type} (s : TMState α) (id : String) : TaskStatusKind α :=
  if id ∈ s.tasks then TaskStatusKind.running
  else
    match s.completedTasks.find? (fun p => p.1 = id) with
    | some p => TaskStatusKind.completed p.2
    | none => TaskStatusKind.notFound

structure BarrierEntry (α : Type) where
  taskId : String
  success : Bool
  result : Option α
  error : Option MinimaxErr
  completedAt : ℚ
deriving DecidableEq, Repr

structure BarrierResult (α : Type) where
  completed : ℕ
  results : List (BarrierEntry α)
deriving DecidableEq, Repr

/-- The result-collection phase of barrier, run after the awaited
in-flight snapshot has settled: every entry of the completed map, with
completed equal to the length of that list. -/
def barrierCollect {α : Type} (s : TMState α) : BarrierResult α :=
  let results := s.completedTasks.map (fun p =>
    { taskId := p.1, success := p.2.success, result := p.2.result, error := p.2.error,
      completedAt := p.2.completedAt : BarrierEntry α })
  { completed := results.length, results := results }

structure TaskStats where
  activeTasks : ℕ
  completedTasks : ℕ
  totalProcessed : ℕ
deriving DecidableEq, Repr

/-- getStats: sizes of both maps and the taskCounter field as
totalProcessed. -/
def getStats {α : Type} (s : TMState α) : TaskStats :=
  { activeTasks := s.tasks.length, completedTasks := s.completedTasks.length,
    totalProcessed := s.taskCounter }

/-- The Promise.allSettled stage of barrier over the awaited snapshot:
it resolves with one entry per promise and never rejects, whatever the
individual outcomes. -/
def promiseAllSettled {α : Type} (ps : List (Except ThrownError α)) :
    Except MinimaxErr (List (Except ThrownError α)) :=
  Except.ok ps

/-- Registry invariant: no duplicate in-flight id, no id recorded twice,
no duplicate completed key, and every completed key was recorded. -/
def TMInv {α : Type} (s : TMState α) : Prop :=
  s.tasks.Nodup ∧ s.recorded.Nodup ∧ (keysOf s.completedTasks).Nodup ∧
  ∀ id, id ∈ keysOf s.completedTasks → id ∈ s.recorded

theorem mem_keysOf {α : Type} {l : List (String × TaskResult α)} {id : String} :
    id ∈ keysOf l ↔ ∃ r, (id, r) ∈ l := by
  constructor
  · intro h
    obtain ⟨⟨a, b⟩, hp, he⟩ := List.mem_map.mp h
    cases he
    exact ⟨b, hp⟩
  · rintro ⟨r, hm⟩
    exact List.mem_map.mpr ⟨(id, r), hm, rfl⟩

theorem keysOf_append {α : Type} (l1 l2 : List (String × TaskResult α)) :
    keysOf (l1 ++ l2) = keysOf l1 ++ keysOf l2 :=
  List.map_append _ _ _

theorem tmStep_inv {α : Type} (s s2 : TMState α) (e : TMEvent α)
    (hstep : tmStep s e = some s2) (hinv : TMInv s) : TMInv s2 := by
  obtain ⟨h1, h2, h3, h4⟩ := hinv
  cases e with
  | submit id =>
    simp only [tmStep] at hstep
    split at hstep
    · cases hstep
    · cases hstep
      rename_i hni
      push_neg at hni
      refine ⟨?_, h2, h3, h4⟩
      simp [List.nodup_append, h1, hni.1]
  | record id res now =>
    simp only [tmStep] at hstep
    split at hstep
    · cases hstep
      rename_i hc
      have hid : id ∉ keysOf s.completedTasks := fun hk => hc.2 (h4 id hk)
      refine ⟨h1, ?_, ?_, ?_⟩
      · simp [List.nodup_append, h2, hc.2]
      · rw [keysOf_append]
        refine List.Nodup.append h3 (List.nodup_singleton id) ?_
        intro a ha hb
        have hai : a = id := by simpa [keysOf] using hb
        exact hid (hai ▸ ha)
      · intro j hj
        rw [keysOf_append] at hj
        rcases List.mem_append.mp hj with hj | hj
        · exact List.mem_append.mpr (Or.inl (h4 j hj))
        · simp only [keysOf, List.map_cons, List.map_nil, List.mem_singleton] at hj
          simp [hj]
    · cases hstep
  | finalize id =>
    simp only [tmStep] at hstep
    split at hstep
    · cases hstep
      exact ⟨h1.erase id, h2, h3, h4⟩
    · cases hstep
  | clear =>
    simp only [tmStep, Option.some.injEq] at hstep
    cases hstep
    exact ⟨h1, h2, by simp [keysOf], by simp [keysOf]⟩

theorem tmRun_inv {α : Type} (evs : List (TMEvent α)) (s s2 : TMState α)
    (hrun : tmRun s evs = some s2) (hinv : TMInv s) : TMInv s2 := by
  induction evs generalizing s with
  | nil => simp only [tmRun, Option.some.injEq] at hrun; cases hrun; exact hinv
  | cons e rest ih =>
    simp only [tmRun] at hrun
    cases h : tmStep s e with
    | none => rw [h] at hrun; cases hrun
    | some s1 =>
      rw [h] at hrun
      exact ih s1 hrun (tmStep_inv s s1 e h hinv)

theorem tmReachable_inv {α : Type} (s : TMState α) (h : TMReachable s) : TMInv s := by
  obtain ⟨evs, hrun⟩ := h
  exact tmRun_inv evs tmInit s hrun ⟨by simp [tmInit], by simp [tmInit], by simp [tmInit, keysOf], by simp [tmInit, keysOf]⟩

theorem tmRun_append {α : Type} (evs1 evs2 : List (TMEvent α)) (s : TMState α) :
    tmRun s (evs1 ++ evs2) =
      match tmRun s evs1 with
      | none => none
      | some s1 => tmRun s1 evs2 := by
  induction evs1 generalizing s with
  | nil => simp [tmRun]
  | cons e rest ih =>
    simp only [List.cons_append, tmRun]
    cases tmStep s e with
    | none => rfl
    | some s1 => exact ih s1

theorem nodup_keys_unique {α : Type} (l : List (String × TaskResult α))
    (h : (keysOf l).Nodup) {id : String} {r1 r2 : TaskResult α}
    (h1 : (id, r1) ∈ l) (h2 : (id, r2) ∈ l) : r1 = r2 := by
  induction l with
  | nil => cases h1
  | cons p rest ih =>
    rw [show keysOf (p :: rest) = p.1 :: keysOf rest from rfl, List.nodup_cons] at h
    rcases List.mem_cons.mp h1 with e1 | m1 <;> rcases List.mem_cons.mp h2 with e2 | m2
    · rw [← e2] at e1
      injection e1
    · exact absurd (mem_keysOf.mpr ⟨r2, m2⟩) (by rw [← e1] at h; exact h.1)
    · exact absurd (mem_keysOf.mpr ⟨r1, m1⟩) (by rw [← e2] at h; exact h.1)
    · exact ih h.2 m1 m2

/-! ## Claims C3 and C10 about the registry -/

/-- The completed record stored for the task with id a in the overlap
trace. -/
def overlapResult : TaskResult ℕ :=
  { success := true, result := some 0, error := none, completedAt := 5 }

/-- The registry state reached by submitting task a and running its
settlement callback, before its finally callback has run. -/
def overlapState : TMState ℕ :=
  { tasks := ["a"], completedTasks := [("a", overlapResult)], taskCounter := 0,
    recorded := ["a"] }

/-- Claim C3 counterexample: after submit of task a and its settlement
callback, and before the finally callback that deletes it from the
in-flight map, the id a is simultaneously in the in-flight map and in the
completed map, an observation point reachable because the two callbacks
run as distinct microtasks. -/
theorem C3_overlap_counterexample :
    tmRun tmInit [TMEvent.submit "a", TMEvent.record "a" (Except.ok 0) 5] =
      some overlapState ∧
    "a" ∈ overlapState.tasks ∧ "a" ∈ keysOf overlapState.completedTasks := by
  refine ⟨by decide, by decide, by decide⟩

/-- Claim C3, amended: in every reachable registry state the in-flight
list and the completed keys are duplicate-free and an id can be in both
maps only inside the settlement window, that is, only when its settlement
callback has already run; at every observation point an id has at most one
recorded outcome, and while the id remains in-flight a single-task status
query deterministically reports running, never two different outcomes. -/
theorem C3_exclusive_states (α : Type) (s : TMState α) (h : TMReachable s) :
    s.tasks.Nodup ∧ (keysOf s.completedTasks).Nodup ∧
    (∀ id, id ∈ s.tasks → id ∈ keysOf s.completedTasks → id ∈ s.recorded) ∧
    (∀ id r1 r2, (id, r1) ∈ s.completedTasks → (id, r2) ∈ s.completedTasks → r1 = r2) ∧
    (∀ id, id ∈ s.tasks → getTaskStatus s id = TaskStatusKind.running) := by
  obtain ⟨h1, h2, h3, h4⟩ := tmReachable_inv s h
  exact ⟨h1, h3, fun id _ hk => h4 id hk,
    fun id r1 r2 m1 m2 => nodup_keys_unique _ h3 m1 m2,
    fun id hid => by simp [getTaskStatus, hid]⟩

/-- Witness for the amended claim C3 at the reachable overlap state. -/
theorem C3_exclusive_states_witness :
    TMReachable overlapState ∧
    (overlapState.tasks.Nodup ∧ (keysOf overlapState.completedTasks).Nodup ∧
    (∀ id, id ∈ overlapState.tasks → id ∈ keysOf overlapState.completedTasks →
      id ∈ overlapState.recorded) ∧
    (∀ id r1 r2, (id, r1) ∈ overlapState.completedTasks →
      (id, r2) ∈ overlapState.completedTasks → r1 = r2) ∧
    (∀ id, id ∈ overlapState.tasks →
      getTaskStatus overlapState id = TaskStatusKind.running)) :=
  ⟨⟨[TMEvent.submit "a", TMEvent.record "a" (Except.ok 0) 5], by decide⟩,
    C3_exclusive_states ℕ overlapState
      ⟨[TMEvent.submit "a", TMEvent.record "a" (Except.ok 0) 5], by decide⟩⟩

theorem tmStep_counter {α : Type} (s s2 : TMState α) (e : TMEvent α)
    (hstep : tmStep s e = some s2) : s2.taskCounter = s.taskCounter := by
  cases e <;> simp only [tmStep] at hstep <;>
    first
    | (split at hstep <;> cases hstep <;> rfl)
    | (cases hstep; rfl)

theorem tmRun_counter {α : Type} (evs : List (TMEvent α)) (s s2 : TMState α)
    (hrun : tmRun s evs = some s2) : s2.taskCounter = s.taskCounter := by
  induction evs generalizing s with
  | nil => simp only [tmRun, Option.some.injEq] at hrun; cases hrun; rfl
  | cons e rest ih =>
    simp only [tmRun] at hrun
    cases h : tmStep s e with
    | none => rw [h] at hrun; cases hrun
    | some s1 => rw [h] at hrun; rw [ih s1 hrun, tmStep_counter s s1 e h]

/-- Claim C10: over every sequence of registry operations, getStats
reports totalProcessed equal to zero, because the constructor sets
taskCounter to zero and no operation ever increments it. -/
theorem C10_totalProcessed_zero (α : Type) (s : TMState α) (h : TMReachable s) :
    (getStats s).totalProcessed = 0 := by
  obtain ⟨evs, hrun⟩ := h
  simpa [getStats] using tmRun_counter evs tmInit s hrun

/-- The registry state with one in-flight task t. -/
def oneTaskState : TMState ℕ :=
  { tasks := ["t"], completedTasks := [], taskCounter := 0, recorded := [] }

/-- Witness for claim C10 at the reachable one-task state. -/
theorem C10_totalProcessed_zero_witness :
    TMReachable oneTaskState ∧ (getStats oneTaskState).totalProcessed = 0 :=
  ⟨⟨[TMEvent.submit "t"], by decide⟩,
    C10_totalProcessed_zero ℕ oneTaskState ⟨[TMEvent.submit "t"], by decide⟩⟩

/-! ## Claim C7: failures are data at the barrier boundary -/

theorem append_ne_empty_left (s t : String) (h : s ≠ "") : s ++ t ≠ "" := by
  intro he
  apply h
  have hd := congrArg String.data he
  rw [String.data_append] at hd
  exact String.ext (List.append_eq_nil.mp hd).1

theorem jsOrString_ne (v : Option String) (d : String) (hd : d ≠ "") :
    jsOrString v d ≠ "" := by
  cases v with
  | none => exact hd
  | some s =>
    by_cases hs : s = ""
    · simpa [jsOrString, hs] using hd
    · simp [jsOrString, hs]

theorem handleNonResponseError_message_ne (e : ThrownError) :
    (handleNonResponseError e).message ≠ "" := by
  unfold handleNonResponseError
  split
  · rename_i hcond
    split <;> first | decide | exact hcond.1
  · split
    · exact (show ("Network connection failed" : String) ≠ "" by decide)
    · split
      · exact (show ("Request timeout" : String) ≠ "" by decide)
      · split
        · exact (show ("Unknown error occurred" : String) ≠ "" by decide)
        · rename_i hne
          exact hne

theorem handleRespError_message_ne (e : ThrownError) (b : BaseResp) :
    (handleRespError e b).message ≠ "" := by
  unfold handleRespError
  split
  · split
    · exact append_ne_empty_left "Authentication failed: " _ (by decide)
    · split
      · exact append_ne_empty_left "Rate limit exceeded: " _ (by decide)
      · exact jsOrString_ne _ _ (by decide)
  · exact handleNonResponseError_message_ne e

theorem handleAPIError_message_ne (e : ThrownError) (r : Option APIResponse) :
    (handleAPIError e r).message ≠ "" := by
  cases r with
  | none => exact handleNonResponseError_message_ne e
  | some resp =>
    obtain ⟨br⟩ := resp
    cases br with
    | none => exact handleNonResponseError_message_ne e
    | some b => exact handleRespError_message_ne e b

/-- Claim C7: the await stage of barrier uses Promise.allSettled, which
resolves whatever the outcomes of the awaited tasks are, so barrier never
rejects because a task failed; and a task whose work function threw an
error appears in the collected results as data: an entry with its id,
success false and a structured processed error that carries a kind and a
nonempty message. -/
theorem C7_failures_are_data (α : Type) (ps : List (Except ThrownError α))
    (s s2 : TMState α) (id : String) (e : ThrownError) (now : ℚ)
    (hstep : tmStep s (TMEvent.record id (Except.error e) now) = some s2) :
    promiseAllSettled ps = Except.ok ps ∧
    ∃ entry ∈ (barrierCollect s2).results,
      entry.taskId = id ∧ entry.success = false ∧
      entry.error = some (handleAPIError e none) ∧
      (handleAPIError e none).message ≠ "" := by
  refine ⟨rfl, ?_⟩
  simp only [tmStep] at hstep
  split at hstep
  · cases hstep
    refine ⟨⟨id, false, none, some (handleAPIError e none), now⟩, ?_, rfl, rfl, rfl,
      handleAPIError_message_ne e none⟩
    simp only [barrierCollect, List.map_append]
    exact List.mem_append.mpr (Or.inr (by simp [settleOutcome]))
  · cases hstep

/-- The registry state with one in-flight task f. -/
def oneFailState : TMState ℕ :=
  { tasks := ["f"], completedTasks := [], taskCounter := 0, recorded := [] }

/-- A thrown connection failure. -/
def netErr : ThrownError :=
  { kind := MinimaxErrKind.generic, name := "Error", message := "",
    code := some "ECONNREFUSED" }

/-- The state after the failing settlement callback of task f ran with a
network error. -/
def oneFailDone : TMState ℕ :=
  { tasks := ["f"],
    completedTasks := [("f", settleOutcome (Except.error netErr) 7)],
    taskCounter := 0, recorded := ["f"] }

/-- Witness for claim C7: task f fails with a connection error; the
barrier results contain its entry as data. -/
theorem C7_failures_are_data_witness :
    tmStep oneFailState (TMEvent.record "f" (Except.error netErr) 7) = some oneFailDone ∧
    (promiseAllSettled [Except.error netErr, Except.ok (2 : ℕ)] =
      Except.ok [Except.error netErr, Except.ok 2] ∧
    ∃ entry ∈ (barrierCollect oneFailDone).results,
      entry.taskId = "f" ∧ entry.success = false ∧
      entry.error = some (handleAPIError netErr none) ∧
      (handleAPIError netErr none).message ≠ "") :=
  ⟨by decide,
    C7_failures_are_data ℕ [Except.error netErr, Except.ok 2] oneFailState oneFailDone
      "f" netErr 7 (by decide)⟩

/-! ## Claim C8: exhaustiveness of the barrier result list

A barrier call snapshots the in-flight promises and awaits them; those
promises settle only after their finally callbacks run, so between the
snapshot state and the collection state only settlement callbacks (record
and finalize steps) of the snapshotted tasks occur. -/

def isSettleEvent {α : Type} : TMEvent α → Bool
  | TMEvent.record _ _ _ => true
  | TMEvent.finalize _ => true
  | _ => false

/-- The registry state after task a was submitted, its settlement callback
recorded a success, and clearCompletedTasks ran, all before the finally
callback: a is still in-flight but its result is gone. -/
def lostTaskState : TMState ℕ :=
  { tasks := ["a"], completedTasks := [], taskCounter := 0, recorded := ["a"] }

/-- The state after the pending finally callback of task a also ran. -/
def lostTaskFinal : TMState ℕ :=
  { tasks := [], completedTasks := [], taskCounter := 0, recorded := ["a"] }

/-- Claim C8 counterexample: if clearCompletedTasks runs inside the
settlement window of task a, a barrier called next still sees a in-flight
and waits for it, yet after the wait the collected result list is empty:
no entry for a task that was in-flight at call time, so the returned list
is not exhaustive. -/
theorem C8_lost_entry_counterexample :
    tmRun tmInit
      [TMEvent.submit "a", TMEvent.record "a" (Except.ok 0) 5, TMEvent.clear] =
      some lostTaskState ∧
    (∀ e ∈ ([TMEvent.finalize "a"] : List (TMEvent ℕ)), isSettleEvent e = true) ∧
    tmRun lostTaskState [TMEvent.finalize "a"] = some lostTaskFinal ∧
    lostTaskFinal.tasks = [] ∧
    "a" ∈ lostTaskState.tasks ∧
    (barrierCollect lostTaskFinal).results = [] ∧
    (barrierCollect lostTaskFinal).completed = 0 := by
  refine ⟨by decide, by decide, by decide, by decide, by decide, by decide, by decide⟩

theorem barrierCollect_keys {α : Type} (s : TMState α) :
    (barrierCollect s).results.map BarrierEntry.taskId = keysOf s.completedTasks := by
  simp only [barrierCollect, List.map_map]
  rfl

theorem settle_membership {α : Type} (evs : List (TMEvent α)) (s s2 : TMState α)
    (hsettle : ∀ e ∈ evs, isSettleEvent e = true)
    (hrun : tmRun s evs = some s2) (id : String) :
    (id ∈ keysOf s2.completedTasks ∨ (id ∈ s2.tasks ∧ id ∉ s2.recorded)) ↔
      (id ∈ keysOf s.completedTasks ∨ (id ∈ s.tasks ∧ id ∉ s.recorded)) := by
  induction evs generalizing s with
  | nil =>
    simp only [tmRun, Option.some.injEq] at hrun
    cases hrun
    exact Iff.rfl
  | cons e rest ih =>
    have hrest : ∀ x ∈ rest, isSettleEvent x = true := fun x hx =>
      hsettle x (List.mem_cons_of_mem _ hx)
    simp only [tmRun] at hrun
    cases hst : tmStep s e with
    | none => rw [hst] at hrun; cases hrun
    | some s1 =>
      rw [hst] at hrun
      cases e with
      | submit jid =>
        exact absurd (hsettle (TMEvent.submit jid) (by simp)) (by simp [isSettleEvent])
      | clear =>
        exact absurd (hsettle TMEvent.clear (by simp)) (by simp [isSettleEvent])
      | record j res now =>
        simp only [tmStep] at hst
        split at hst
        · rename_i hc
          cases hst
          refine (ih _ hrest hrun).trans ?_
          by_cases hj : id = j
          · subst hj
            simp [keysOf_append, keysOf, hc.1, hc.2]
          · simp [keysOf_append, keysOf, hj]
        · cases hst
      | finalize j =>
        simp only [tmStep] at hst
        split at hst
        · rename_i hc
          cases hst
          refine (ih _ hrest hrun).trans ?_
          by_cases hj : id = j
          · subst hj
            simp [hc.2]
          · simp [List.mem_erase_of_ne hj]
        · cases hst

/-- Claim C8, amended: when the registry settles the snapshotted in-flight
tasks with no clearing in between, the barrier result list is
duplicate-free, its completed count equals its length (zero when the
registry was empty at the call), and it contains exactly one entry for
every previously-completed-and-uncleared task and every in-flight task
whose settlement callback had not yet run at call time; an in-flight task
whose completion was already recorded and then cleared before the call
yields no entry. -/
theorem C8_barrier_exhaustive (α : Type) (s s2 : TMState α) (evs : List (TMEvent α))
    (hreach : TMReachable s)
    (hsettle : ∀ e ∈ evs, isSettleEvent e = true)
    (hrun : tmRun s evs = some s2)
    (hdone : s2.tasks = []) :
    (barrierCollect s2).completed = (barrierCollect s2).results.length ∧
    ((barrierCollect s2).results.map BarrierEntry.taskId).Nodup ∧
    ∀ id, id ∈ (barrierCollect s2).results.map BarrierEntry.taskId ↔
      (id ∈ keysOf s.completedTasks ∨ (id ∈ s.tasks ∧ id ∉ s.recorded)) := by
  obtain ⟨evs0, hrun0⟩ := hreach
  have hreach2 : TMReachable s2 := by
    refine ⟨evs0 ++ evs, ?_⟩
    rw [tmRun_append, hrun0]
    exact hrun
  have hinv2 := tmReachable_inv s2 hreach2
  refine ⟨rfl, ?_, ?_⟩
  · rw [barrierCollect_keys]
    exact hinv2.2.2.1
  · intro id
    rw [barrierCollect_keys]
    have hmem := settle_membership evs s s2 hsettle hrun id
    rw [hdone] at hmem
    simpa using hmem

/-- The registry state at barrier-call time of the witness scenario: task
x completed and uncleared, task y still in-flight and unrecorded. -/
def snapState : TMState ℕ :=
  { tasks := ["y"], completedTasks := [("x", settleOutcome (Except.ok 1) 2)],
    taskCounter := 0, recorded := ["x"] }

/-- The state after the barrier wait: both tasks settled and finalized. -/
def doneState : TMState ℕ :=
  { tasks := [],
    completedTasks := [("x", settleOutcome (Except.ok 1) 2),
      ("y", settleOutcome (Except.ok 3) 7)],
    taskCounter := 0, recorded := ["x", "y"] }

/-- Witness for the amended claim C8 at the concrete two-task scenario. -/
theorem C8_barrier_exhaustive_witness :
    TMReachable snapState ∧
    (∀ e ∈ ([TMEvent.record "y" (Except.ok 3) 7, TMEvent.finalize "y"] : List (TMEvent ℕ)),
      isSettleEvent e = true) ∧
    tmRun snapState [TMEvent.record "y" (Except.ok 3) 7, TMEvent.finalize "y"] =
      some doneState ∧
    doneState.tasks = [] ∧
    ((barrierCollect doneState).completed = (barrierCollect doneState).results.length ∧
    ((barrierCollect doneState).results.map BarrierEntry.taskId).Nodup ∧
    ∀ id, id ∈ (barrierCollect doneState).results.map BarrierEntry.taskId ↔
      (id ∈ keysOf snapState.completedTasks ∨
        (id ∈ snapState.tasks ∧ id ∉ snapState.recorded))) :=
  ⟨⟨[TMEvent.submit "x", TMEvent.record "x" (Except.ok 1) 2, TMEvent.finalize "x",
      TMEvent.submit "y"], by decide⟩, by decide, by decide, by decide,
    C8_barrier_exhaustive ℕ snapState doneState
      [TMEvent.record "y" (Except.ok 3) 7, TMEvent.finalize "y"]
      ⟨[TMEvent.submit "x", TMEvent.record "x" (Except.ok 1) 2, TMEvent.finalize "x",
        TMEvent.submit "y"], by decide⟩
      (by decide) (by decide) (by decide)⟩

/-! ## Rate-limited manager (class RateLimitedTaskManager, src/core/task-manager.ts)

One adaptive limiter per category (image and tts, configured from
RATE_LIMITS with backoff 0.7 and recovery 1.05 manager defaults) plus the
per-category metrics counters.  The registry part of the manager is the
TMState model above; the events here are the limiter and metrics effects
of the wrapped work function: the post-acquire step that increments the
request counter and spends the granted token, the success and failure
paths, and resetMetrics. -/

structure TaskMetrics where
  requests : ℕ
  successes : ℕ
  errors : ℕ
deriving DecidableEq, Repr

structure MgrState where
  image : AdaptiveState
  tts : AdaptiveState
  imageMetrics : TaskMetrics
  ttsMetrics : TaskMetrics
deriving DecidableEq, Repr

inductive TaskType where
  | image
  | tts
deriving DecidableEq, Repr

/-- The RateLimitedTaskManager constructor: per-category limiters from
RATE_LIMITS (image 10 rpm burst 3, tts 20 rpm burst 5) with the manager
option defaults backoff 0.7 and recovery 1.05 applied through the
JavaScript or-else, and zeroed metrics. -/
def initMgr (backoffOpt recoveryOpt : Option ℚ) (now : ℚ) : MgrState :=
  { image := initAdaptive
      { rpm := 10, burst := some 3,
        backoffFactor := some (jsOrQ backoffOpt (7 / 10)),
        recoveryFactor := some (jsOrQ recoveryOpt (21 / 20)) } now,
    tts := initAdaptive
      { rpm := 20, burst := some 5,
        backoffFactor := some (jsOrQ backoffOpt (7 / 10)),
        recoveryFactor := some (jsOrQ recoveryOpt (21 / 20)) } now,
    imageMetrics := ⟨0, 0, 0⟩, ttsMetrics := ⟨0, 0, 0⟩ }

/-- resetMetrics: zero both metrics records and call reset on every
limiter; reset is the inherited base-class method. -/
def resetMetrics (s : MgrState) (now : ℚ) : MgrState :=
  { image := reset s.image now, tts := reset s.tts now,
    imageMetrics := ⟨0, 0, 0⟩, ttsMetrics := ⟨0, 0, 0⟩ }

inductive MgrEvent where
  | taskStart (t : TaskType)
  | taskSuccess (t : TaskType)
  | taskFailure (t : TaskType) (e : ThrownError) (now : ℚ)
  | resetEvent (now : ℚ)
deriving Repr

def bumpRequests (m : TaskMetrics) : TaskMetrics :=
  { m with requests := m.requests + 1 }

def bumpSuccesses (m : TaskMetrics) : TaskMetrics :=
  { m with successes := m.successes + 1 }

def bumpErrors (m : TaskMetrics) : TaskMetrics :=
  { m with errors := m.errors + 1 }

def spendToken (a : AdaptiveState) : AdaptiveState :=
  { a with tokens := a.tokens - 1 }

/-- One atomic turn of the wrapped work function or of resetMetrics:
taskStart is the code after an immediately-granted acquire (one token
spent, request counter bumped); taskSuccess and taskFailure are the two
arms of its try block, feeding onSuccess and onError. -/
def mgrStep (s : MgrState) : MgrEvent → Option MgrState
  | MgrEvent.taskStart t =>
    match t with
    | TaskType.image =>
      if 0 < s.image.tokens then
        some { s with image := spendToken s.image, imageMetrics := bumpRequests s.imageMetrics }
      else none
    | TaskType.tts =>
      if 0 < s.tts.tokens then
        some { s with tts := spendToken s.tts, ttsMetrics := bumpRequests s.ttsMetrics }
      else none
  | MgrEvent.taskSuccess t =>
    match t with
    | TaskType.image =>
      some { s with image := onSuccess s.image, imageMetrics := bumpSuccesses s.imageMetrics }
    | TaskType.tts =>
      some { s with tts := onSuccess s.tts, ttsMetrics := bumpSuccesses s.ttsMetrics }
  | MgrEvent.taskFailure t e now =>
    match t with
    | TaskType.image =>
      some { s with image := onError s.image e now, imageMetrics := bumpErrors s.imageMetrics }
    | TaskType.tts =>
      some { s with tts := onError s.tts e now, ttsMetrics := bumpErrors s.ttsMetrics }
  | MgrEvent.resetEvent now => some (resetMetrics s now)

def mgrRun (s : MgrState) : List MgrEvent → Option MgrState
  | [] => some s
  | e :: rest =>
    match mgrStep s e with
    | none => none
    | some s2 => mgrRun s2 rest

/-- Claim C2 counterexample: start an image task, let it fail with a
rate-limit error, then call resetMetrics.  The metrics are zeroed, but the
image limiter keeps consecutive-error count 1 and effective rpm 7 while
its originally configured rpm is 10: the limiter is not returned to its
initial non-penalized state, because the inherited reset only refills
tokens, restamps the refill time and drops the queue. -/
theorem C2_reset_counterexample :
    (mgrRun (initMgr none none 0)
      [MgrEvent.taskStart TaskType.image,
        MgrEvent.taskFailure TaskType.image rlErr 100,
        MgrEvent.resetEvent 200]).map
      (fun s => (s.imageMetrics, s.ttsMetrics, s.image.consecutiveErrors,
        s.image.originalRpm, s.image.rpm, s.image.tokens)) =
      some (⟨0, 0, 0⟩, ⟨0, 0, 0⟩, 1, 10, 7, 3) ∧ (7 : ℚ) ≠ 10 := by
  constructor
  · simp only [mgrRun, mgrStep, initMgr, initAdaptive, jsOrQ, jsOrN, rlErr, onError,
      resetMetrics, reset, spendToken, bumpRequests, bumpErrors, Option.map]
    norm_num
  · norm_num

/-- Claim C2, amended: resetMetrics zeroes every metrics counter and, in
each limiter, refills the tokens to full burst, restamps the last-refill
time and empties the wait queue; but it does not reset the adaptive
penalty: the consecutive-error count, the effective rpm and the interval
of each limiter keep their pre-call values. -/
theorem C2_resetMetrics_keeps_penalty (s : MgrState) (now : ℚ) :
    (resetMetrics s now).imageMetrics = ⟨0, 0, 0⟩ ∧
    (resetMetrics s now).ttsMetrics = ⟨0, 0, 0⟩ ∧
    (resetMetrics s now).image.tokens = s.image.burst ∧
    (resetMetrics s now).image.queue = [] ∧
    (resetMetrics s now).image.lastRefill = now ∧
    (resetMetrics s now).image.consecutiveErrors = s.image.consecutiveErrors ∧
    (resetMetrics s now).image.rpm = s.image.rpm ∧
    (resetMetrics s now).image.interval = s.image.interval ∧
    (resetMetrics s now).tts.tokens = s.tts.burst ∧
    (resetMetrics s now).tts.queue = [] ∧
    (resetMetrics s now).tts.lastRefill = now ∧
    (resetMetrics s now).tts.consecutiveErrors = s.tts.consecutiveErrors ∧
    (resetMetrics s now).tts.rpm = s.tts.rpm ∧
    (resetMetrics s now).tts.interval = s.tts.interval := by
  simp [resetMetrics, reset]

end MinimaxTools
